import Mathlib

/-!
Verification development for the rFilet transfer relay.

The relay (src/ws.rs) brokers one sender and one recipient over message
sockets through a shared concurrent transfer map.  We embed the registry
operations, the sender and receiver session handlers and the relay pump as
pure Lean functions over explicit event scripts: every socket read, one-shot
resolution, timer tick and channel signal of the Rust code appears as an
event constructor, and the concurrent `DashMap` (which holds at most one
entry per key and linearises its `insert`/`remove` calls) is an association
list with erase-by-key semantics.  Text frames are modelled with their exact
serialised JSON (serde struct serialisation keeps declaration field order;
the `json!` macro serialises through a `BTreeMap`, i.e. alphabetical key
order; JSON string escaping is elided as no claim depends on it).

The manifest staging variant (src/state.rs, src/routes.rs) is embedded
directly: `FileManifest.toText`, `FileManifest.parse` (including Rust's
`str::lines` handling of `\r\n`, `split_once('=')`, `HashMap` collect with
later-duplicate-wins, `u64`/`bool` parsing) and `download_blob`.
-/

/-- File metadata carried by a transfer entry (src/ws.rs `FileMetadata`
usage; fields per the `SenderInit` handshake). -/
structure FileMetadata where
  filename : String
  size : Nat
  mime_type : String
deriving DecidableEq

/-- Modelled from the spec: the `TransferState` enum is declared in the
repository's state module which is not under src/ (src/ws.rs consumes it via
`use crate::state::*`).  Spec section 3 gives the four states; the one-shot
producer carried by the two waiting states is modelled by a numeric channel
identity, its resolution appearing as explicit events in the session
scripts. -/
inductive TransferState where
  | waitingForRecipient (metadata : FileMetadata) (recipientTx : Nat)
  | reconnecting (metadata : FileMetadata) (recipientTx : Nat)
  | active
  | done
deriving DecidableEq

/-- The transfer registry: a `DashMap<String, TransferState>` holds at most
one entry per key, so it is an association list whose `insert` replaces and
whose `remove` erases the key. -/
abbrev Registry := List (String × TransferState)

def mapLookup (reg : Registry) (id : String) : Option TransferState :=
  match reg with
  | [] => none
  | (k, v) :: rest => if k = id then some v else mapLookup rest id

def eraseKey (reg : Registry) (id : String) : Registry :=
  reg.filter (fun kv => kv.1 != id)

/-- `DashMap::insert`: unconditional, replaces any existing entry. -/
def mapInsert (reg : Registry) (id : String) (v : TransferState) : Registry :=
  (id, v) :: eraseKey reg id

/-- `DashMap::remove`: atomically take the entry out, returning it. -/
def removeGet (reg : Registry) (id : String) : Option TransferState × Registry :=
  (mapLookup reg id, eraseKey reg id)

/-- Frames written to a websocket: text (JSON), binary payload, or ping. -/
inductive Frame where
  | text (s : String)
  | binary (d : List Nat)
  | ping
deriving DecidableEq

/-- JSON string literal; escaping elided (no claim depends on it). -/
def jsonStr (s : String) : String := "\"" ++ s ++ "\""

/-- serde serialisation of `SenderResponse` with only `type` and `id`. -/
def senderRespReady (id : String) : String :=
  "\x7b\"type\":\"ready\",\"id\":" ++ jsonStr id ++ "\x7d"

def senderRespStart : String := "\x7b\"type\":\"start\"\x7d"

def senderRespPaused : String := "\x7b\"type\":\"paused\"\x7d"

def senderRespResume (offset : Nat) : String :=
  "\x7b\"type\":\"resume\",\"offset\":" ++ toString offset ++ "\x7d"

/-- ws.rs line 249: `cancelled` with error "Recipient disconnected". -/
def senderRespCancelled : String :=
  "\x7b\"type\":\"cancelled\",\"error\":\"Recipient disconnected\"\x7d"

def senderRespError (e : String) : String :=
  "\x7b\"type\":\"error\",\"error\":" ++ jsonStr e ++ "\x7d"

/-- ws.rs line 340: raw string sent to a recipient whose claim failed. -/
def claimErrorText : String :=
  "\x7b\"type\":\"error\",\"error\":\"Transfer not found or already claimed\"\x7d"

/-- ws.rs lines 377/420: raw string for a vanished sender. -/
def senderDiscText : String :=
  "\x7b\"type\":\"error\",\"error\":\"Sender disconnected\"\x7d"

/-- ws.rs line 404: raw `done` frame to the recipient. -/
def doneJson : String := "\x7b\"type\":\"done\"\x7d"

/-- ws.rs lines 356-361: `json!` metadata object (BTreeMap key order). -/
def metadataJson (m : FileMetadata) : String :=
  "\x7b\"filename\":" ++ jsonStr m.filename ++ ",\"mime_type\":" ++
    jsonStr m.mime_type ++ ",\"size\":" ++ toString m.size ++
    ",\"type\":\"metadata\"\x7d"

/-- ws.rs lines 410-414: `json!` relay error object (BTreeMap key order). -/
def relayErrorJson (e : String) : String :=
  "\x7b\"error\":" ++ jsonStr e ++ ",\"type\":\"error\"\x7d"

/-- Outcome of the claim phase of `handle_receiver` (ws.rs lines 320-347). -/
inductive ClaimResult where
  | claimed (metadata : FileMetadata) (recipientTx : Nat)
  | rejected (frame : String)
deriving DecidableEq

def ClaimResult.isClaimed : ClaimResult → Bool
  | .claimed _ _ => true
  | .rejected _ => false

/-- Claim phase of `handle_receiver` (ws.rs lines 320-347): first the entry
is unconditionally removed from the map, then only `WaitingForRecipient` and
`Reconnecting` entries are accepted; anything else earns the error frame. -/
def claimStep (reg : Registry) (id : String) : ClaimResult × Registry :=
  let taken := removeGet reg id
  match taken.1 with
  | some (.waitingForRecipient m tx) => (.claimed m tx, taken.2)
  | some (.reconnecting m tx) => (.claimed m tx, taken.2)
  | _ => (.rejected claimErrorText, taken.2)

/-- An entry (as looked up) that a recipient claim would accept. -/
def claimableEntry : Option TransferState → Bool
  | some (.waitingForRecipient _ _) => true
  | some (.reconnecting _ _) => true
  | _ => false

/-- Events feeding the recipient pump loop (ws.rs lines 391-437): results of
`data_rx.recv()` (queue side) and `ws_rx.next()` (socket side), with a write
failure on a binary frame made explicit. -/
inductive PumpEvent where
  | qData (d : List Nat)
  | qDataWriteFail (d : List Nat)
  | qFinished
  | qError (e : String)
  | qClosed
  | sockClose
  | sockOther
deriving DecidableEq

/-- Recipient pump loop (ws.rs lines 391-437): frames written to the
recipient socket for a given event sequence. -/
def receiverPump : List PumpEvent → List Frame
  | [] => []
  | .qData d :: rest => .binary d :: receiverPump rest
  | .qDataWriteFail _ :: _ => []
  | .qFinished :: _ => [.text doneJson]
  | .qError e :: _ => [.text (relayErrorJson e)]
  | .qClosed :: _ => [.text senderDiscText]
  | .sockClose :: _ => []
  | .sockOther :: rest => receiverPump rest

/-- `handle_receiver` (ws.rs lines 317-441): claim, metadata frame, link
publication (`publishOk` models `recipient_tx.send(link)` succeeding),
re-insertion as `Active`, then the pump. -/
def handle_receiver (reg : Registry) (id : String) (_resume_offset : Nat)
    (publishOk : Bool) (events : List PumpEvent) : List Frame × Registry :=
  match claimStep reg id with
  | (.rejected f, reg') => ([.text f], reg')
  | (.claimed m _tx, reg') =>
      let metaFrame := Frame.text (metadataJson m)
      if publishOk then
        (metaFrame :: receiverPump events, mapInsert reg' id .active)
      else
        ([metaFrame, .text senderDiscText], reg')

/-- A serialised schedule of recipient claim attempts against one id: the
`DashMap` linearises the removals, so concurrent attempts appear in some
serial order.  The boolean at each position schedules whether the winning
claimant's `Active` re-insertion (ws.rs line 386, which runs only after a
successful claim) happens before the next attempt; `pending` records a
success whose re-insertion has not yet run. -/
def runClaimAttempts (id : String) :
    List Bool → Registry → Bool → List ClaimResult × Registry
  | [], reg, _ => ([], reg)
  | b :: bs, reg, pending =>
      let step := claimStep reg id
      let pending1 := pending || step.1.isClaimed
      let next :=
        if b && pending1 then (mapInsert step.2 id .active, false)
        else (step.2, pending1)
      let rest := runClaimAttempts id bs next.1 next.2
      (step.1 :: rest.1, rest.2)

/-- Sender handshake message (ws.rs `SenderInit`, with serde default for
`mime_type`). -/
structure SenderInit where
  filename : String
  size : Nat
  mime_type : String
deriving DecidableEq

/-- Messages read from the sender socket during the metadata phase.  The
result of `serde_json::from_str::<SenderInit>` on a text frame is encoded in
the constructor (`textOk` parses, `textErr` fails with message `e`);
`otherMsg` covers ping/pong frames.  The end of the list models
`ws_rx.next()` returning `None`. -/
inductive InMsg where
  | textOk (init : SenderInit)
  | textErr (e : String)
  | binary (d : List Nat)
  | otherMsg
  | close
deriving DecidableEq

/-- Outcome of the sender metadata phase (ws.rs lines 33-69). -/
inductive MetaResult where
  | ok (m : FileMetadata)
  | errorReply (e : String)
  | abortSilent
deriving DecidableEq

/-- Metadata phase of `handle_sender` (ws.rs lines 33-69): loop on the
socket; a text frame breaks (with the `mime_type` default applied) or
replies with an error; `Close` or stream end returns silently; anything
else (`_ => continue`) is skipped. -/
def metadataPhase : List InMsg → MetaResult
  | [] => .abortSilent
  | .textOk init :: _ =>
      .ok ⟨init.filename, init.size,
        if init.mime_type = "" then "application/octet-stream"
        else init.mime_type⟩
  | .textErr e :: _ => .errorReply ("Invalid metadata: " ++ e)
  | .close :: _ => .abortSilent
  | .binary _ :: rest => metadataPhase rest
  | .otherMsg :: rest => metadataPhase rest

/-- Events feeding the wait-for-recipient select loop (ws.rs lines 99-133):
resolution of the recipient one-shot, sender socket messages, ping ticks. -/
inductive WaitEvent where
  | linkPublished (resume_offset : Nat)
  | channelDropped
  | senderClose
  | senderOther
  | pingTick
deriving DecidableEq

/-- Wait-for-recipient loop (ws.rs lines 99-133).  Returns the ping frames
sent, the registry after the loop, and the published link's resume offset
(`none` when the handler returned early, having removed its entry). -/
def waitPhase : List WaitEvent → Registry → String →
    List Frame × Registry × Option Nat
  | [], reg, id => ([], eraseKey reg id, none)
  | .linkPublished off :: _, reg, _ => ([], reg, some off)
  | .channelDropped :: _, reg, id => ([], eraseKey reg id, none)
  | .senderClose :: _, reg, id => ([], eraseKey reg id, none)
  | .senderOther :: rest, reg, id => waitPhase rest reg id
  | .pingTick :: rest, reg, id =>
      let r := waitPhase rest reg id
      (.ping :: r.1, r.2)

/-- Messages relayed through the bounded data queue (state module,
modelled from the spec section 3: `Data(bytes)`, `Finished`,
`Error(string)`). -/
inductive RelayMessage where
  | data (d : List Nat)
  | finished
  | error (e : String)
deriving DecidableEq

/-- Result of the relay pump (ws.rs `RelayResult`). -/
inductive RelayResult where
  | done
  | senderDisconnected
  | recipientDisconnected
deriving DecidableEq

/-- Events feeding the relay pump select loop (ws.rs lines 275-315): sender
socket messages (with the JSON `type == "done"` test on text frames encoded
in the constructor, and a `data_tx.send` failure on a binary frame made
explicit as `binaryFail`) and the cancel signal. -/
inductive RelayEvent where
  | binary (d : List Nat)
  | binaryFail (d : List Nat)
  | doneText
  | otherText
  | otherMsg
  | close
  | cancelFired
deriving DecidableEq

/-- The relay pump `relay_data` (ws.rs lines 275-315): the messages pushed
into the data queue, in order, and the pump's result. -/
def relay_data : List RelayEvent → List RelayMessage × RelayResult
  | [] => ([.error ("Sender disconnected")], .senderDisconnected)
  | .binary d :: rest =>
      let r := relay_data rest
      (.data d :: r.1, r.2)
  | .binaryFail _ :: _ => ([], .recipientDisconnected)
  | .doneText :: _ => ([.finished], .done)
  | .otherText :: rest => relay_data rest
  | .otherMsg :: rest => relay_data rest
  | .close :: _ => ([.error ("Sender disconnected")], .senderDisconnected)
  | .cancelFired :: _ => ([], .recipientDisconnected)

/-- ws.rs line 9: `RECONNECT_TIMEOUT = Duration::from_secs(30)`. -/
def RECONNECT_TIMEOUT : Nat := 30

/-- Events feeding the reconnect-wait select loop (ws.rs lines 186-222):
like `WaitEvent` plus the firing of the 30-second sleep. -/
inductive RWEvent where
  | linkPublished (resume_offset : Nat)
  | channelDropped
  | senderClose
  | senderOther
  | pingTick
  | timeoutFired
deriving DecidableEq

/-- Reconnect-wait loop (ws.rs lines 194-221).  `channelDropped` breaks
without touching the registry (line 199); the timeout and a sender close
remove the entry before breaking (lines 204, 211). -/
def reconnectWaitLoop : List RWEvent → Registry → String →
    Option Nat × Registry × List Frame
  | [], reg, _ => (none, reg, [])
  | .linkPublished off :: _, reg, _ => (some off, reg, [])
  | .channelDropped :: _, reg, _ => (none, reg, [])
  | .timeoutFired :: _, reg, id => (none, eraseKey reg id, [])
  | .senderClose :: _, reg, id => (none, eraseKey reg id, [])
  | .senderOther :: rest, reg, id => reconnectWaitLoop rest reg id
  | .pingTick :: rest, reg, id =>
      let r := reconnectWaitLoop rest reg id
      (r.1, r.2.1, .ping :: r.2.2)

/-- Timed scheduling of the reconnect wait: `tokio::time::sleep` is created
once, before the loop (ws.rs line 190), so it fires at the absolute time
`RECONNECT_TIMEOUT` after entering the wait, regardless of any events the
loop processed meanwhile.  Events are listed in arrival order with their
offset (in seconds) from entering the wait; those arriving before the
deadline precede the timeout, everything later is preempted by it. -/
def insertTimeout (events : List (Nat × RWEvent)) : List RWEvent :=
  (events.takeWhile (fun te => decide (te.1 < RECONNECT_TIMEOUT))).map
      Prod.snd ++ [.timeoutFired]

/-- Recipient-disconnect handling inside the sender relay loop (ws.rs lines
160-261): re-insert the entry as `Reconnecting` with a fresh one-shot, send
`paused`, run the reconnect wait, then either send `resume` and re-insert
`Active`, or send `cancelled`. -/
def reconnectPhase (timedEvents : List (Nat × RWEvent)) (reg : Registry)
    (id : String) (metadata : FileMetadata) (freshTx : Nat) :
    Option Nat × Registry × List Frame :=
  let reg1 := mapInsert reg id (.reconnecting metadata freshTx)
  let w := reconnectWaitLoop (insertTimeout timedEvents) reg1 id
  match w.1 with
  | some off =>
      (some off, mapInsert w.2.1 id .active,
        .text senderRespPaused :: w.2.2 ++ [.text (senderRespResume off)])
  | none =>
      (none, w.2.1, .text senderRespPaused :: w.2.2 ++
        [.text senderRespCancelled])

/-- Sender relay loop with reconnection (ws.rs lines 151-267): each round is
the relay pump's event stream plus, if the recipient dropped, the timed
events of the reconnect wait.  Every `break` of the loop falls through to
`state.transfers.remove(&id)` at line 266. -/
def senderRelayLoop :
    List (List RelayEvent × List (Nat × RWEvent)) → Registry → String →
      FileMetadata → Nat → List Frame × Registry
  | [], reg, id, _, _ => ([], eraseKey reg id)
  | (relayEvents, rwEvents) :: rounds, reg, id, metadata, freshTx =>
      match (relay_data relayEvents).2 with
      | .done => ([], eraseKey reg id)
      | .senderDisconnected => ([], eraseKey reg id)
      | .recipientDisconnected =>
          let p := reconnectPhase rwEvents reg id metadata freshTx
          match p.1 with
          | some _ =>
              let rest := senderRelayLoop rounds p.2.1 id metadata
                (freshTx + 1)
              (p.2.2 ++ rest.1, rest.2)
          | none => (p.2.2, eraseKey p.2.1 id)

/-- The external events driving one `handle_sender` execution, phase by
phase: socket messages before the handshake completes, events of the
wait-for-recipient select, then one (relay, reconnect-wait) event pair per
round of the relay loop. -/
structure SenderScript where
  metaMsgs : List InMsg
  waitEvents : List WaitEvent
  rounds : List (List RelayEvent × List (Nat × RWEvent))

/-- `handle_sender` (ws.rs lines 30-267).  `genId` is the id produced by
`nanoid::nanoid!(12)`; frames written to the sender socket and the final
registry are returned. -/
def handle_sender (script : SenderScript) (genId : String) (reg : Registry) :
    List Frame × Registry :=
  match metadataPhase script.metaMsgs with
  | .abortSilent => ([], reg)
  | .errorReply e => ([.text (senderRespError e)], reg)
  | .ok metadata =>
      let reg1 := mapInsert reg genId (.waitingForRecipient metadata 0)
      let w := waitPhase script.waitEvents reg1 genId
      match w.2.2 with
      | none => (.text (senderRespReady genId) :: w.1, w.2.1)
      | some _off =>
          let r := senderRelayLoop script.rounds w.2.1 genId metadata 1
          (.text (senderRespReady genId) :: w.1 ++ [.text senderRespStart]
            ++ r.1, r.2)

/-- Registration step of `handle_sender` (ws.rs lines 71-95): a single
unconditional `DashMap::insert` of the freshly generated id, then the
`ready` frame.  There is no presence check, no retry loop and no error
path. -/
def registerTransfer (reg : Registry) (genId : String)
    (metadata : FileMetadata) : Registry × Frame :=
  (mapInsert reg genId (.waitingForRecipient metadata 0),
    .text (senderRespReady genId))

/-- Decimal digit character, as produced by Rust's `u64` Display. -/
def digitChar (d : Nat) : Char := Char.ofNat (48 + d)

/-- Decimal rendering of an unsigned integer (Rust `u64` Display):
most-significant digit first.  The structural `fuel` bounds the recursion
depth; `n + 1` always exceeds the digit count of `n`. -/
def natToDecAux : Nat → Nat → List Char → List Char
  | 0, _, acc => acc
  | fuel + 1, n, acc =>
      if n < 10 then digitChar n :: acc
      else natToDecAux fuel (n / 10) (digitChar (n % 10) :: acc)

def natToDec (n : Nat) : List Char := natToDecAux (n + 1) n []

/-- One decimal digit of `u64::from_str`. -/
def decDigit (c : Char) : Option Nat :=
  if 48 ≤ c.toNat ∧ c.toNat ≤ 57 then some (c.toNat - 48) else none

def parseDecAux : List Char → Nat → Option Nat
  | [], acc => some acc
  | c :: rest, acc =>
      match decDigit c with
      | some d => parseDecAux rest (acc * 10 + d)
      | none => none

/-- Rust `str::parse::<u64>()`: an optional leading `+`, then at least one
decimal digit, rejecting values that overflow a `u64`. -/
def parseU64 (s : List Char) : Option Nat :=
  let digits :=
    match s with
    | c :: rest => if c = '+' then rest else c :: rest
    | [] => []
  match digits with
  | [] => none
  | _ =>
      match parseDecAux digits 0 with
      | some n => if n < 2 ^ 64 then some n else none
      | none => none

/-- Rust `str::parse::<bool>()`: exactly "true" or "false". -/
def parseBoolStr (s : List Char) : Option Bool :=
  if s = ("true").data then some true
  else if s = ("false").data then some false
  else none

/-- Strip one trailing carriage return (the `\r` of a `\r\n` line break). -/
def stripCrList (l : List Char) : List Char :=
  if l.getLast? = some ('\r') then l.dropLast else l

/-- Rust `str::lines`: split at `\n`, treating `\r\n` as a single break
(the `\r` is stripped); the final line ending is optional, and a final
segment without a terminator keeps any lone trailing `\r`. -/
def rustLinesGo : List Char → List Char → List (List Char)
  | [], acc => if acc.isEmpty then [] else [acc.reverse]
  | c :: rest, acc =>
      if c = '\n' then stripCrList acc.reverse :: rustLinesGo rest []
      else rustLinesGo rest (c :: acc)

def rustLines (content : List Char) : List (List Char) :=
  rustLinesGo content []

/-- Rust `str::split_once('=')`: split at the first `=`, `none` if absent. -/
def splitOnceEq : List Char → Option (List Char × List Char)
  | [] => none
  | c :: rest =>
      if c = '=' then some ([], rest)
      else (splitOnceEq rest).map (fun kv => (c :: kv.1, kv.2))

/-- Lookup in the `HashMap` collected from the key/value pairs: sequential
insertion means a later pair with the same key shadows an earlier one. -/
def collectMap (kvs : List (List Char × List Char)) (k : List Char) :
    Option (List Char) :=
  match kvs with
  | [] => none
  | (k0, v0) :: rest =>
      match collectMap rest k with
      | some v => some v
      | none => if k0 = k then some v0 else none

/-- On-disk transfer manifest (src/state.rs `FileManifest`). -/
structure FileManifest where
  id : String
  filename : String
  size : Nat
  created_at_unix : Nat
  expires_at_unix : Nat
  chunk_size : Nat
  chunk_count : Nat
  received_size : Nat
  complete : Bool
deriving DecidableEq

/-- `FileManifest::to_text` (src/state.rs lines 119-133): the nine
`key=value` lines joined with `\n` plus a trailing `\n`, written here as
each line followed by its terminator. -/
def FileManifest.toTextData (m : FileManifest) : List Char :=
  (("id=").data ++ m.id.data) ++ '\n' ::
  ((("filename=").data ++ m.filename.data) ++ '\n' ::
  ((("size=").data ++ natToDec m.size) ++ '\n' ::
  ((("created_at_unix=").data ++ natToDec m.created_at_unix) ++ '\n' ::
  ((("expires_at_unix=").data ++ natToDec m.expires_at_unix) ++ '\n' ::
  ((("chunk_size=").data ++ natToDec m.chunk_size) ++ '\n' ::
  ((("chunk_count=").data ++ natToDec m.chunk_count) ++ '\n' ::
  ((("received_size=").data ++ natToDec m.received_size) ++ '\n' ::
  ((("complete=").data ++
      (if m.complete then ("true").data else ("false").data)) ++
    '\n' :: []))))))))

def FileManifest.toText (m : FileManifest) : String := ⟨m.toTextData⟩

def getManifestKey (kvs : List (List Char × List Char)) (k : List Char) :
    Except String (List Char) :=
  match collectMap kvs k with
  | some v => .ok v
  | none => .error "manifest missing key"

def parseNatField (v : List Char) (emsg : String) : Except String Nat :=
  match parseU64 v with
  | some n => .ok n
  | none => .error emsg

def parseBoolField (v : List Char) (emsg : String) : Except String Bool :=
  match parseBoolStr v with
  | some b => .ok b
  | none => .error emsg

/-- `FileManifest::parse` (src/state.rs lines 135-164): split into lines,
split each at the first `=` (lines without `=` are skipped), collect into a
`HashMap`, then fetch and parse each field. -/
def FileManifest.parse (content : String) : Except String FileManifest := do
  let values := (rustLines content.data).filterMap splitOnceEq
  let idv ← getManifestKey values (("id").data)
  let fnv ← getManifestKey values (("filename").data)
  let size ← getManifestKey values (("size").data) >>=
    fun v => parseNatField v ("invalid size")
  let created ← getManifestKey values (("created_at_unix").data) >>=
    fun v => parseNatField v ("invalid created_at_unix")
  let expires ← getManifestKey values (("expires_at_unix").data) >>=
    fun v => parseNatField v ("invalid expires_at_unix")
  let chunkSize ← getManifestKey values (("chunk_size").data) >>=
    fun v => parseNatField v ("invalid chunk_size")
  let chunkCount ← getManifestKey values (("chunk_count").data) >>=
    fun v => parseNatField v ("invalid chunk_count")
  let received ← getManifestKey values (("received_size").data) >>=
    fun v => parseNatField v ("invalid received_size")
  let complete ← getManifestKey values (("complete").data) >>=
    fun v => parseBoolField v ("invalid complete")
  pure ⟨⟨idv⟩, ⟨fnv⟩, size, created, expires, chunkSize, chunkCount,
    received, complete⟩

/-- Response of the blob download route, abstracted from the HTTP layer:
`notFound` records whether `delete_transfer_files` ran first; `ok` is the
200 response streaming `chunk_count` chunk files with the manifest's
filename and size in its headers. -/
inductive BlobResponse where
  | notFound (deletedFiles : Bool)
  | ok (filename : String) (size : Nat) (chunkCount : Nat)
deriving DecidableEq

/-- `download_blob` (src/routes.rs lines 19-51) as a function of the loaded
manifest (`state.load_manifest(&id)`) and the current unix time. -/
def download_blob (manifest : Option FileManifest) (now : Nat) :
    BlobResponse :=
  match manifest with
  | none => .notFound false
  | some m =>
      if ¬m.complete ∨ m.received_size ≠ m.size then .notFound false
      else if m.expires_at_unix ≤ now then .notFound true
      else .ok m.filename m.size m.chunk_count

/-- Payload sequence of the `Data` messages in a queue trace. -/
def dataPayloads : List RelayMessage → List (List Nat)
  | [] => []
  | .data d :: rest => d :: dataPayloads rest
  | .finished :: rest => dataPayloads rest
  | .error _ :: rest => dataPayloads rest

/-- Payload sequence of the binary frames in a socket trace. -/
def binaryFramesOf : List Frame → List (List Nat)
  | [] => []
  | .binary d :: rest => d :: binaryFramesOf rest
  | .text _ :: rest => binaryFramesOf rest
  | .ping :: rest => binaryFramesOf rest

/-- The recipient pump's queue events for a given queue content (the
recipient socket stays quiet and writes succeed). -/
def queueToPump : List RelayMessage → List PumpEvent :=
  List.map (fun m =>
    match m with
    | .data d => PumpEvent.qData d
    | .finished => PumpEvent.qFinished
    | .error e => PumpEvent.qError e)

/-- Spec-side characterisation (spec: "the sequence of `Data` payloads
delivered to the recipient equals the sequence the sender emitted", "FIFO
per queue"): the payloads of the binary frames the sender emitted before its
first `done` text frame or socket close. -/
def specBinariesBeforeDone : List RelayEvent → List (List Nat)
  | [] => []
  | .binary d :: rest => d :: specBinariesBeforeDone rest
  | .binaryFail d :: rest => d :: specBinariesBeforeDone rest
  | .doneText :: _ => []
  | .close :: _ => []
  | .otherText :: rest => specBinariesBeforeDone rest
  | .otherMsg :: rest => specBinariesBeforeDone rest
  | .cancelFired :: rest => specBinariesBeforeDone rest

/-- Relay events that involve no recipient-side failure. -/
def relayEventOk : RelayEvent → Bool
  | .binaryFail _ => false
  | .cancelFired => false
  | _ => true

/-- Reconnect-wait events whose recipient link, if any, arrives only at or
after the 30-second deadline. -/
def noEarlyLink (te : Nat × RWEvent) : Bool :=
  match te.2 with
  | .linkPublished _ => decide (RECONNECT_TIMEOUT ≤ te.1)
  | _ => true

/-- Sender-socket messages that are neither text nor close. -/
def nonTextNonClose : InMsg → Bool
  | .binary _ => true
  | .otherMsg => true
  | _ => false

def witnessMeta : FileMetadata := ⟨"a.bin", 5, "application/octet-stream"⟩

def witnessReg : Registry :=
  [(("tid123456789"), .waitingForRecipient witnessMeta 0)]

def RWEvent.isLink : RWEvent → Bool
  | .linkPublished _ => true
  | _ => false

def script6 : SenderScript :=
  ⟨[.binary [0], .textOk ⟨("a.bin"), 5, ("")⟩], [], []⟩

def manifestIncompleteExpired : FileManifest :=
  ⟨("abc123def456"), ("f.bin"), 10, 0, 5, 1048576, 1, 3, false⟩

def manifestW : FileManifest :=
  ⟨("abc123def456"), ("report.pdf"), 1234, 100, 200, 64, 20, 1234, true⟩

theorem mapLookup_eraseKey (reg : Registry) (id : String) :
    mapLookup (eraseKey reg id) id = none := by
  induction reg with
  | nil => rfl
  | cons kv rest ih =>
      by_cases h : kv.1 = id
      · simpa [eraseKey, List.filter_cons, h] using ih
      · simpa [eraseKey, List.filter_cons, h, mapLookup] using ih

theorem mapLookup_mapInsert (reg : Registry) (id : String)
    (v : TransferState) : mapLookup (mapInsert reg id v) id = some v := by
  simp [mapInsert, mapLookup]

theorem mapLookup_none_forall (reg : Registry) (id : String)
    (h : mapLookup reg id = none) : ∀ kv ∈ reg, kv.1 ≠ id := by
  induction reg with
  | nil => intro kv hkv; cases hkv
  | cons kv0 rest ih =>
      intro kv hkv
      by_cases hk : kv0.1 = id
      · simp [mapLookup, hk] at h
      · simp [mapLookup, hk] at h
        rcases List.mem_cons.mp hkv with rfl | hm
        · exact hk
        · exact ih h kv hm

theorem eraseKey_of_lookup_none (reg : Registry) (id : String)
    (h : mapLookup reg id = none) : eraseKey reg id = reg := by
  unfold eraseKey
  rw [List.filter_eq_self]
  intro kv hkv
  simpa using mapLookup_none_forall reg id h kv hkv

theorem claimStep_not_claimable (reg : Registry) (id : String)
    (h : claimableEntry (mapLookup reg id) = false) :
    claimStep reg id = (.rejected claimErrorText, eraseKey reg id) := by
  cases hl : mapLookup reg id with
  | none => simp [claimStep, removeGet, hl]
  | some st =>
      cases st with
      | waitingForRecipient m tx => rw [hl] at h; simp [claimableEntry] at h
      | reconnecting m tx => rw [hl] at h; simp [claimableEntry] at h
      | active => simp [claimStep, removeGet, hl]
      | done => simp [claimStep, removeGet, hl]

theorem claimStep_claimable (reg : Registry) (id : String)
    (h : claimableEntry (mapLookup reg id) = true) :
    (claimStep reg id).1.isClaimed = true ∧
      (claimStep reg id).2 = eraseKey reg id := by
  cases hl : mapLookup reg id with
  | none => rw [hl] at h; simp [claimableEntry] at h
  | some st =>
      cases st with
      | waitingForRecipient m tx =>
          simp [claimStep, removeGet, hl, ClaimResult.isClaimed]
      | reconnecting m tx =>
          simp [claimStep, removeGet, hl, ClaimResult.isClaimed]
      | active => rw [hl] at h; simp [claimableEntry] at h
      | done => rw [hl] at h; simp [claimableEntry] at h

theorem claimableEntry_eraseKey (reg : Registry) (id : String) :
    claimableEntry (mapLookup (eraseKey reg id) id) = false := by
  rw [mapLookup_eraseKey]; rfl

theorem claimableEntry_insertActive (reg : Registry) (id : String) :
    claimableEntry (mapLookup (mapInsert reg id .active) id) = false := by
  rw [mapLookup_mapInsert]; rfl

theorem runClaimAttempts_not_claimable (id : String) (bs : List Bool) :
    ∀ (reg : Registry) (pending : Bool),
      claimableEntry (mapLookup reg id) = false →
      (runClaimAttempts id bs reg pending).1 =
        bs.map (fun _ => ClaimResult.rejected claimErrorText) := by
  induction bs with
  | nil => intro reg pending _; rfl
  | cons b bs ih =>
      intro reg pending h
      have hstep := claimStep_not_claimable reg id h
      have hna := claimableEntry_eraseKey reg id
      have hia := claimableEntry_insertActive (eraseKey reg id) id
      simp only [runClaimAttempts, hstep, ClaimResult.isClaimed,
        Bool.or_false, List.map_cons]
      cases hb : (b && pending) with
      | true => simp [hb, ih _ _ hia]
      | false => simp [hb, ih _ _ hna]

/-- C1: for every transfer id, at most one recipient claim ever succeeds.
Of any serialised schedule of claim attempts against an entry in
`WaitingForRecipient` or `Reconnecting` (the winner's `Active` re-insertion
scheduled at any later point), exactly one attempt obtains the entry and
every other attempt is rejected with the frame
`{"type":"error","error":"Transfer not found or already claimed"}`, upon
which `handle_receiver` returns without relaying. -/
theorem claim_at_most_one (reg : Registry) (id : String) (bs : List Bool)
    (hclaim : claimableEntry (mapLookup reg id) = true) (hne : bs ≠ []) :
    (runClaimAttempts id bs reg false).1.countP ClaimResult.isClaimed = 1 ∧
    ∀ r ∈ (runClaimAttempts id bs reg false).1,
      r.isClaimed = false → r = .rejected claimErrorText := by
  cases bs with
  | nil => exact absurd rfl hne
  | cons b bs =>
      obtain ⟨hc, hr⟩ := claimStep_claimable reg id hclaim
      have hna := claimableEntry_eraseKey reg id
      have hia := claimableEntry_insertActive (eraseKey reg id) id
      have hrun : (runClaimAttempts id (b :: bs) reg false).1 =
          (claimStep reg id).1 ::
            bs.map (fun _ => ClaimResult.rejected claimErrorText) := by
        simp only [runClaimAttempts, hc, hr, Bool.false_or, Bool.and_true]
        cases b with
        | true => simp [runClaimAttempts_not_claimable id bs _ _ hia]
        | false => simp [runClaimAttempts_not_claimable id bs _ _ hna]
      constructor
      · rw [hrun, List.countP_cons]
        have hz : (bs.map
            (fun _ => ClaimResult.rejected claimErrorText)).countP
            ClaimResult.isClaimed = 0 := by
          rw [List.countP_eq_zero]
          intro a ha
          obtain ⟨x, _, rfl⟩ := List.mem_map.mp ha
          simp [ClaimResult.isClaimed]
        rw [hz, hc]
        rfl
      · rw [hrun]
        intro r hmem hnotc
        rcases List.mem_cons.mp hmem with h1 | h2
        · rw [h1, hc] at hnotc; cases hnotc
        · obtain ⟨x, _, rfl⟩ := List.mem_map.mp h2; rfl

/-- Witness for `claim_at_most_one`: three racing claims, the winner's
`Active` re-insertion occurring before the second attempt. -/
theorem claim_at_most_one_witness :
    claimableEntry (mapLookup witnessReg ("tid123456789")) = true ∧
    ([true, false, false] ≠ ([] : List Bool)) ∧
    ((runClaimAttempts ("tid123456789") [true, false, false] witnessReg
        false).1.countP ClaimResult.isClaimed = 1 ∧
      ∀ r ∈ (runClaimAttempts ("tid123456789") [true, false, false]
          witnessReg false).1,
        r.isClaimed = false → r = .rejected claimErrorText) :=
  ⟨by decide, by decide,
    claim_at_most_one witnessReg ("tid123456789") [true, false, false]
      (by decide) (by decide)⟩

/-- C3 counterexample: a claim against an entry in state `Active` is
rejected with the specified error frame, but the entry is *not* left present
and unchanged — the unconditional `remove` at ws.rs line 321 has deleted it
from the registry. -/
theorem failed_claim_removes_active_entry :
    claimableEntry (mapLookup [(("tidactive000"), TransferState.active)]
        ("tidactive000")) = false ∧
    (handle_receiver [(("tidactive000"), TransferState.active)]
        ("tidactive000") 0 true []).1 = [.text claimErrorText] ∧
    mapLookup (handle_receiver [(("tidactive000"), TransferState.active)]
        ("tidactive000") 0 true []).2 ("tidactive000") = none := by
  refine ⟨rfl, ?_, ?_⟩ <;> decide

/-- C3 (amended): a failed claim — absent id, or entry in a non-claimable
state such as `Active` or `Done` — sends the recipient
`{"type":"error","error":"Transfer not found or already claimed"}` and
closes; when the id was absent the registry is left unchanged, but a
non-claimable entry present under the id is removed by the failed claim
(the resulting registry is always the original with the id erased). -/
theorem claim_conflict_error_and_erase (reg : Registry) (id : String)
    (off : Nat) (pub : Bool) (evs : List PumpEvent)
    (h : claimableEntry (mapLookup reg id) = false) :
    (handle_receiver reg id off pub evs).1 = [.text claimErrorText] ∧
    (handle_receiver reg id off pub evs).2 = eraseKey reg id ∧
    (mapLookup reg id = none → (handle_receiver reg id off pub evs).2 = reg) ∧
    mapLookup (handle_receiver reg id off pub evs).2 id = none := by
  have hstep := claimStep_not_claimable reg id h
  simp only [handle_receiver, hstep]
  refine ⟨trivial, trivial, fun hnone => eraseKey_of_lookup_none reg id hnone,
    mapLookup_eraseKey reg id⟩

/-- Witness for `claim_conflict_error_and_erase` at a `Done` entry. -/
theorem claim_conflict_error_and_erase_witness :
    claimableEntry (mapLookup [(("tiddone00000"), TransferState.done)]
        ("tiddone00000")) = false ∧
    ((handle_receiver [(("tiddone00000"), TransferState.done)]
        ("tiddone00000") 0 true []).1 = [.text claimErrorText] ∧
      (handle_receiver [(("tiddone00000"), TransferState.done)]
        ("tiddone00000") 0 true []).2 =
        eraseKey [(("tiddone00000"), TransferState.done)] ("tiddone00000") ∧
      (mapLookup [(("tiddone00000"), TransferState.done)]
          ("tiddone00000") = none →
        (handle_receiver [(("tiddone00000"), TransferState.done)]
          ("tiddone00000") 0 true []).2 =
          [(("tiddone00000"), TransferState.done)]) ∧
      mapLookup (handle_receiver [(("tiddone00000"), TransferState.done)]
        ("tiddone00000") 0 true []).2 ("tiddone00000") = none) :=
  ⟨by decide,
    claim_conflict_error_and_erase [(("tiddone00000"), TransferState.done)]
      ("tiddone00000") 0 true [] (by decide)⟩

/-- C8: on every execution of `handle_receiver` whose claim succeeds, the
metadata text frame is the first frame written to the recipient socket — it
precedes every binary frame and every other text frame. -/
theorem metadata_frame_first (reg : Registry) (id : String) (off : Nat)
    (pub : Bool) (evs : List PumpEvent) (m : FileMetadata) (tx : Nat)
    (h : mapLookup reg id = some (.waitingForRecipient m tx) ∨
      mapLookup reg id = some (.reconnecting m tx)) :
    ∃ rest, (handle_receiver reg id off pub evs).1 =
      Frame.text (metadataJson m) :: rest := by
  rcases h with h | h <;>
    · simp only [handle_receiver, claimStep, removeGet, h]
      cases pub with
      | true => exact ⟨receiverPump evs, rfl⟩
      | false => exact ⟨[.text senderDiscText], rfl⟩

/-- Witness for `metadata_frame_first` at a concrete waiting entry. -/
theorem metadata_frame_first_witness :
    (mapLookup witnessReg ("tid123456789") =
        some (.waitingForRecipient witnessMeta 0) ∨
      mapLookup witnessReg ("tid123456789") =
        some (.reconnecting witnessMeta 0)) ∧
    ∃ rest, (handle_receiver witnessReg ("tid123456789") 0 true
        [PumpEvent.qData [1, 2], PumpEvent.qFinished]).1 =
      Frame.text (metadataJson witnessMeta) :: rest :=
  ⟨by decide,
    metadata_frame_first witnessReg ("tid123456789") 0 true
      [PumpEvent.qData [1, 2], PumpEvent.qFinished] witnessMeta 0
      (by decide)⟩

/-- C2: with the recipient attached (no queue-send failure, no cancel), the
`Data` payloads the relay pump enqueues equal, in order and content, the
binary frames the sender emitted before its first `done` text frame or
socket close, and the recipient pump writes exactly those payloads as binary
frames in the same order — no duplication, reordering or storage. -/
theorem relay_fifo (evs : List RelayEvent)
    (h : ∀ e ∈ evs, relayEventOk e = true) :
    dataPayloads (relay_data evs).1 = specBinariesBeforeDone evs ∧
    binaryFramesOf (receiverPump (queueToPump (relay_data evs).1)) =
      specBinariesBeforeDone evs := by
  induction evs with
  | nil => exact ⟨rfl, rfl⟩
  | cons e rest ih =>
      have he : relayEventOk e = true := h e (List.mem_cons_self e rest)
      have hrest := ih (fun x hx => h x (List.mem_cons_of_mem e hx))
      cases e with
      | binary d =>
          simp only [relay_data, dataPayloads, specBinariesBeforeDone,
            queueToPump, List.map_cons, receiverPump, binaryFramesOf]
          exact ⟨by rw [hrest.1], by
            have := hrest.2
            simp only [queueToPump] at this
            rw [this]⟩
      | binaryFail d => simp [relayEventOk] at he
      | doneText =>
          exact ⟨rfl, rfl⟩
      | otherText =>
          simpa only [relay_data, specBinariesBeforeDone] using hrest
      | otherMsg =>
          simpa only [relay_data, specBinariesBeforeDone] using hrest
      | close => exact ⟨rfl, rfl⟩
      | cancelFired => simp [relayEventOk] at he

/-- Witness for `relay_fifo` on a concrete sender stream. -/
theorem relay_fifo_witness :
    (∀ e ∈ [RelayEvent.binary [1], .otherText, .binary [2, 3], .otherMsg,
        .doneText], relayEventOk e = true) ∧
    (dataPayloads (relay_data [RelayEvent.binary [1], .otherText,
        .binary [2, 3], .otherMsg, .doneText]).1 =
      specBinariesBeforeDone [RelayEvent.binary [1], .otherText,
        .binary [2, 3], .otherMsg, .doneText] ∧
    binaryFramesOf (receiverPump (queueToPump
        (relay_data [RelayEvent.binary [1], .otherText, .binary [2, 3],
          .otherMsg, .doneText]).1)) =
      specBinariesBeforeDone [RelayEvent.binary [1], .otherText,
        .binary [2, 3], .otherMsg, .doneText]) :=
  ⟨by decide,
    relay_fifo [RelayEvent.binary [1], .otherText, .binary [2, 3],
      .otherMsg, .doneText] (by decide)⟩

theorem reconnectWaitLoop_no_link (evs : List RWEvent) :
    ∀ (reg : Registry) (id : String),
      (∀ e ∈ evs, e.isLink = false) →
      (reconnectWaitLoop evs reg id).1 = none := by
  induction evs with
  | nil => intro reg id _; rfl
  | cons e rest ih =>
      intro reg id h
      have he : e.isLink = false := h e (List.mem_cons_self e rest)
      have hrest : ∀ x ∈ rest, RWEvent.isLink x = false :=
        fun x hx => h x (List.mem_cons_of_mem e hx)
      cases e with
      | linkPublished off => simp [RWEvent.isLink] at he
      | channelDropped => rfl
      | senderClose => rfl
      | timeoutFired => rfl
      | senderOther => exact ih reg id hrest
      | pingTick =>
          simp only [reconnectWaitLoop]
          exact ih reg id hrest

theorem insertTimeout_no_link (tev : List (Nat × RWEvent))
    (h : ∀ te ∈ tev, noEarlyLink te = true) :
    ∀ e ∈ insertTimeout tev, e.isLink = false := by
  intro e he
  rcases List.mem_append.mp he with hm | hm
  · obtain ⟨te, hte, rfl⟩ := List.mem_map.mp hm
    have hin : te ∈ tev :=
      (List.takeWhile_sublist _).subset hte
    have hp := List.mem_takeWhile_imp hte
    have hno := h te hin
    cases hte2 : te.2 with
    | linkPublished off =>
        rw [noEarlyLink, hte2] at hno
        simp only [decide_eq_true_eq] at hno hp
        omega
    | channelDropped => rfl
    | senderClose => rfl
    | senderOther => rfl
    | pingTick => rfl
    | timeoutFired => rfl
  · rcases List.mem_singleton.mp hm with rfl
    rfl

theorem reconnectPhase_no_link (tev : List (Nat × RWEvent)) (reg : Registry)
    (id : String) (metadata : FileMetadata) (freshTx : Nat)
    (h : ∀ te ∈ tev, noEarlyLink te = true) :
    (reconnectPhase tev reg id metadata freshTx).1 = none ∧
    ∃ pings, (reconnectPhase tev reg id metadata freshTx).2.2 =
      .text senderRespPaused :: pings ++ [.text senderRespCancelled] := by
  have hnl := insertTimeout_no_link tev h
  have hloop := reconnectWaitLoop_no_link (insertTimeout tev)
    (mapInsert reg id (.reconnecting metadata freshTx)) id hnl
  simp only [reconnectPhase, hloop]
  exact ⟨trivial, _, rfl⟩

/-- C4: when the recipient drops during relay and no new recipient publishes
a link within `RECONNECT_TIMEOUT` (= 30) seconds of entering the reconnect
wait, the sender is sent `{"type":"cancelled","error":"Recipient
disconnected"}` as the last frame of the round and the id's entry is gone
from the registry.  The deadline is absolute — the events may contain
arbitrarily many inbound keepalives (`senderOther`) and ping ticks before
the deadline without extending it. -/
theorem reconnect_timeout_cancelled (tev : List (Nat × RWEvent))
    (reg : Registry) (id : String) (metadata : FileMetadata) (freshTx : Nat)
    (h : ∀ te ∈ tev, noEarlyLink te = true) :
    ((senderRelayLoop [([RelayEvent.cancelFired], tev)] reg id metadata
        freshTx).1).getLast? = some (.text senderRespCancelled) ∧
    mapLookup (senderRelayLoop [([RelayEvent.cancelFired], tev)] reg id
        metadata freshTx).2 id = none := by
  obtain ⟨h1, pings, h2⟩ := reconnectPhase_no_link tev reg id metadata
    freshTx h
  simp only [senderRelayLoop, relay_data, h1]
  constructor
  · rw [h2]
    exact List.getLast?_concat _
  · exact mapLookup_eraseKey _ id

/-- Witness for `reconnect_timeout_cancelled`: keepalives at 5 s and 12 s, a
late link at 31 s. -/
theorem reconnect_timeout_cancelled_witness :
    (∀ te ∈ [((5 : Nat), RWEvent.pingTick), (12, .senderOther),
        (31, .linkPublished 1000000)], noEarlyLink te = true) ∧
    (((senderRelayLoop [([RelayEvent.cancelFired],
          [((5 : Nat), RWEvent.pingTick), (12, .senderOther),
            (31, .linkPublished 1000000)])] [] ("tid123456789") witnessMeta
        1).1).getLast? = some (.text senderRespCancelled) ∧
      mapLookup (senderRelayLoop [([RelayEvent.cancelFired],
          [((5 : Nat), RWEvent.pingTick), (12, .senderOther),
            (31, .linkPublished 1000000)])] [] ("tid123456789") witnessMeta
        1).2 ("tid123456789") = none) :=
  ⟨by decide,
    reconnect_timeout_cancelled
      [((5 : Nat), RWEvent.pingTick), (12, .senderOther),
        (31, .linkPublished 1000000)] [] ("tid123456789") witnessMeta 1
      (by decide)⟩

/-- C5 counterexample: registration (ws.rs lines 71-81) performs a plain
`DashMap::insert` with no presence check, no retry loop and no error path,
so a generated id that collides with an existing entry overwrites it: after
registering over a `Done` entry the old entry is gone. -/
theorem register_overwrites_existing :
    mapLookup [(("AAAABBBBCCCC"), TransferState.done)] ("AAAABBBBCCCC") =
      some TransferState.done ∧
    mapLookup (registerTransfer [(("AAAABBBBCCCC"), TransferState.done)]
        ("AAAABBBBCCCC") witnessMeta).1 ("AAAABBBBCCCC") =
      some (.waitingForRecipient witnessMeta 0) := by
  exact ⟨rfl, by decide⟩

/-- C5 (amended): registration inserts the freshly generated 12-character id
with a single unconditional insert — afterwards the id maps to the new
`WaitingForRecipient` entry regardless of whether it was already present (a
collision silently overwrites the existing entry; there is no retry and no
error to the sender) — and the sender is sent the `ready` frame carrying
the id. -/
theorem register_unconditional (reg : Registry) (genId : String)
    (metadata : FileMetadata) :
    mapLookup (registerTransfer reg genId metadata).1 genId =
      some (.waitingForRecipient metadata 0) ∧
    (registerTransfer reg genId metadata).2 =
      .text (senderRespReady genId) :=
  ⟨mapLookup_mapInsert reg genId _, rfl⟩

/-- Witness for `register_unconditional` on a registry already holding the
generated id. -/
theorem register_unconditional_witness :
    mapLookup (registerTransfer [(("AAAABBBBCCCC"), TransferState.done)]
        ("AAAABBBBCCCC") witnessMeta).1 ("AAAABBBBCCCC") =
      some (.waitingForRecipient witnessMeta 0) ∧
    (registerTransfer [(("AAAABBBBCCCC"), TransferState.done)]
        ("AAAABBBBCCCC") witnessMeta).2 =
      .text (senderRespReady ("AAAABBBBCCCC")) :=
  register_unconditional [(("AAAABBBBCCCC"), TransferState.done)]
    ("AAAABBBBCCCC") witnessMeta

/-- C6 counterexample: a first message that is binary does NOT abort the
sender session — `handle_sender`'s metadata loop skips it (`_ => continue`,
ws.rs line 67), the following text frame completes the handshake, and the
handler replies `ready` (after registering a transfer). -/
theorem binary_first_message_not_aborted :
    metadataPhase [InMsg.binary [0], .textOk ⟨("a.bin"), 5, ("")⟩] =
      .ok ⟨("a.bin"), 5, ("application/octet-stream")⟩ ∧
    (handle_sender script6 ("AAAABBBBCCCC") []).1 =
      [.text (senderRespReady ("AAAABBBBCCCC"))] := by
  exact ⟨by decide, by decide⟩

theorem metadataPhase_skip_all (msgs : List InMsg)
    (h : ∀ x ∈ msgs, nonTextNonClose x = true) :
    ∀ rest, metadataPhase (msgs ++ rest) = metadataPhase rest := by
  induction msgs with
  | nil => intro rest; rfl
  | cons x xs ih =>
      intro rest
      have hx := h x (List.mem_cons_self x xs)
      have hxs : ∀ y ∈ xs, nonTextNonClose y = true :=
        fun y hy => h y (List.mem_cons_of_mem x hy)
      cases x with
      | binary d =>
          have hrec := ih hxs rest
          simpa only [List.cons_append, metadataPhase] using hrec
      | otherMsg =>
          have hrec := ih hxs rest
          simpa only [List.cons_append, metadataPhase] using hrec
      | textOk i => simp [nonTextNonClose] at hx
      | textErr e => simp [nonTextNonClose] at hx
      | close => simp [nonTextNonClose] at hx

/-- C6 (amended): a first message that is neither text nor close (for
example a binary frame) is skipped and the handler keeps waiting for the
first text frame; the session aborts silently — `handle_sender` returns
without writing any frame and with the registry unchanged — exactly when
the socket closes or the stream ends before any text frame arrived. -/
theorem non_text_first_message_skipped (d : List Nat) (rest : List InMsg)
    (msgs : List InMsg) (script : SenderScript) (genId : String)
    (reg : Registry) (h : ∀ x ∈ msgs, nonTextNonClose x = true) :
    metadataPhase (.binary d :: rest) = metadataPhase rest ∧
    metadataPhase msgs = .abortSilent ∧
    metadataPhase (msgs ++ [.close]) = .abortSilent ∧
    (metadataPhase script.metaMsgs = .abortSilent →
      handle_sender script genId reg = ([], reg)) := by
  refine ⟨rfl, ?_, ?_, ?_⟩
  · have := metadataPhase_skip_all msgs h []
    rwa [List.append_nil] at this
  · exact metadataPhase_skip_all msgs h [.close]
  · intro habort
    simp only [handle_sender, habort]

/-- Witness for `non_text_first_message_skipped` on concrete frames. -/
theorem non_text_first_message_skipped_witness :
    (∀ x ∈ [InMsg.binary [7], .otherMsg], nonTextNonClose x = true) ∧
    (metadataPhase (.binary [0] :: [InMsg.close]) =
        metadataPhase [InMsg.close] ∧
      metadataPhase [InMsg.binary [7], .otherMsg] = .abortSilent ∧
      metadataPhase ([InMsg.binary [7], .otherMsg] ++ [.close]) =
        .abortSilent ∧
      (metadataPhase (SenderScript.mk [InMsg.binary [1]] [] []).metaMsgs =
          .abortSilent →
        handle_sender (SenderScript.mk [InMsg.binary [1]] [] [])
          ("AAAABBBBCCCC") [] = ([], []))) :=
  ⟨by decide,
    non_text_first_message_skipped [0] [InMsg.close]
      [InMsg.binary [7], .otherMsg] (SenderScript.mk [InMsg.binary [1]] [] [])
      ("AAAABBBBCCCC") [] (by decide)⟩

theorem waitPhase_none_lookup (evs : List WaitEvent) :
    ∀ (reg : Registry) (id : String),
      (waitPhase evs reg id).2.2 = none →
      mapLookup (waitPhase evs reg id).2.1 id = none := by
  induction evs with
  | nil => intro reg id _; exact mapLookup_eraseKey reg id
  | cons e rest ih =>
      intro reg id h
      cases e with
      | linkPublished off => simp [waitPhase] at h
      | channelDropped => exact mapLookup_eraseKey reg id
      | senderClose => exact mapLookup_eraseKey reg id
      | senderOther => exact ih reg id h
      | pingTick =>
          simp only [waitPhase] at h ⊢
          exact ih reg id h

theorem senderRelayLoop_lookup_none
    (rounds : List (List RelayEvent × List (Nat × RWEvent))) :
    ∀ (reg : Registry) (id : String) (metadata : FileMetadata)
      (freshTx : Nat),
      mapLookup (senderRelayLoop rounds reg id metadata freshTx).2 id =
        none := by
  induction rounds with
  | nil => intro reg id md k; exact mapLookup_eraseKey reg id
  | cons round rounds ih =>
      intro reg id md k
      obtain ⟨rev, rwev⟩ := round
      simp only [senderRelayLoop]
      cases (relay_data rev).2 with
      | done => exact mapLookup_eraseKey reg id
      | senderDisconnected => exact mapLookup_eraseKey reg id
      | recipientDisconnected =>
          cases hp : (reconnectPhase rwev reg id md k).1 with
          | some off => exact ih _ id md (k + 1)
          | none => exact mapLookup_eraseKey _ id

/-- C7: on every exit path of `handle_sender` reached after it inserted its
transfer entry (i.e. whenever the handshake produced metadata), the entry
for its id has been removed from the registry by the time the handler
returns — no entry for the generated id survives the sender socket
handler, whatever the wait, relay and reconnect events were. -/
theorem sender_releases_entry (script : SenderScript) (genId : String)
    (reg : Registry) (m : FileMetadata)
    (h : metadataPhase script.metaMsgs = .ok m) :
    mapLookup (handle_sender script genId reg).2 genId = none := by
  simp only [handle_sender, h]
  cases hw : (waitPhase script.waitEvents
      (mapInsert reg genId (.waitingForRecipient m 0)) genId).2.2 with
  | none =>
      simp only [hw]
      exact waitPhase_none_lookup _ _ _ hw
  | some off =>
      simp only [hw]
      exact senderRelayLoop_lookup_none _ _ _ _ _

/-- Witness for `sender_releases_entry`: a full happy-path run (handshake,
recipient attach, relay until `done`). -/
theorem sender_releases_entry_witness :
    metadataPhase (SenderScript.mk [.textOk ⟨("a.bin"), 5, ("")⟩]
        [.linkPublished 0] [([.binary [1], .doneText], [])]).metaMsgs =
      .ok ⟨("a.bin"), 5, ("application/octet-stream")⟩ ∧
    mapLookup (handle_sender (SenderScript.mk [.textOk ⟨("a.bin"), 5, ("")⟩]
        [.linkPublished 0] [([.binary [1], .doneText], [])])
        ("AAAABBBBCCCC") []).2 ("AAAABBBBCCCC") = none :=
  ⟨by decide,
    sender_releases_entry (SenderScript.mk [.textOk ⟨("a.bin"), 5, ("")⟩]
        [.linkPublished 0] [([.binary [1], .doneText], [])])
      ("AAAABBBBCCCC") [] ⟨("a.bin"), 5, ("application/octet-stream")⟩
      (by decide)⟩

/-- C10 counterexample: an expired manifest that is incomplete is answered
404 *without* deleting the stored files — `download_blob` checks
completeness/size first (routes.rs line 24) and only the complete,
size-matched branch deletes on expiry (routes.rs lines 28-31) —
contradicting the claim that whenever the manifest has expired the
transfer's stored files are deleted before the 404. -/
theorem download_blob_expired_incomplete_no_delete :
    manifestIncompleteExpired.expires_at_unix ≤ 10 ∧
    download_blob (some manifestIncompleteExpired) 10 = .notFound false ∧
    download_blob (some manifestIncompleteExpired) 10 ≠ .notFound true := by
  exact ⟨by decide, by decide, by decide⟩

/-- C10 (amended): `download_blob` serves the stored stream iff a manifest
for the id exists, `complete` is set, `received_size` equals `size`, and
`expires_at_unix` is strictly greater than the current time; in every other
case it responds 404 Not Found.  The stored files are deleted before the
404 exactly when the manifest is complete and size-matched but expired; an
incomplete or size-mismatched staged upload is never downloadable (it is
answered 404 without deletion even when also expired). -/
theorem download_blob_conditions (mo : Option FileManifest) (now : Nat) :
    ((∃ f s c, download_blob mo now = .ok f s c) ↔
      (∃ m, mo = some m ∧ m.complete = true ∧ m.received_size = m.size ∧
        now < m.expires_at_unix)) ∧
    ((download_blob mo now = .notFound true) ↔
      (∃ m, mo = some m ∧ m.complete = true ∧ m.received_size = m.size ∧
        m.expires_at_unix ≤ now)) := by
  cases mo with
  | none => simp [download_blob]
  | some m =>
      by_cases hc : m.complete = true ∧ m.received_size = m.size
      · by_cases he : m.expires_at_unix ≤ now
        · have hd : download_blob (some m) now = .notFound true := by
            simp [download_blob, hc.1, hc.2, he]
          rw [hd]
          constructor
          · constructor
            · rintro ⟨f, s, c, hfc⟩; cases hfc
            · rintro ⟨m', hm, _h1, _h2, hlt⟩
              injection hm with hm'
              subst hm'
              omega
          · constructor
            · intro _; exact ⟨m, rfl, hc.1, hc.2, he⟩
            · intro _; rfl
        · have hd : download_blob (some m) now =
              .ok m.filename m.size m.chunk_count := by
            simp [download_blob, hc.1, hc.2, he]
          rw [hd]
          constructor
          · constructor
            · intro _; exact ⟨m, rfl, hc.1, hc.2, by omega⟩
            · intro _; exact ⟨m.filename, m.size, m.chunk_count, rfl⟩
          · constructor
            · intro hfc; cases hfc
            · rintro ⟨m', hm, _h1, _h2, hle⟩
              injection hm with hm'
              subst hm'
              exact absurd hle he
      · have hcond : (¬(m.complete = true) ∨ m.received_size ≠ m.size) := by
          by_cases h1 : m.complete = true
          · right; intro h2; exact hc ⟨h1, h2⟩
          · left; exact h1
        have hd : download_blob (some m) now = .notFound false := by
          rcases hcond with h1 | h2
          · simp [download_blob, h1]
          · simp [download_blob, h2]
        rw [hd]
        constructor
        · constructor
          · rintro ⟨f, s, c, hfc⟩; cases hfc
          · rintro ⟨m', hm, h1, h2, _⟩
            injection hm with hm'
            subst hm'
            exact absurd ⟨h1, h2⟩ hc
        · constructor
          · intro hfc; cases hfc
          · rintro ⟨m', hm, h1, h2, _⟩
            injection hm with hm'
            subst hm'
            exact absurd ⟨h1, h2⟩ hc

/-- Witness for `download_blob_conditions` on a complete, unexpired
manifest. -/
theorem download_blob_conditions_witness :
    ((∃ f s c, download_blob
        (some ⟨("abc123def456"), ("f.bin"), 10, 0, 99, 1048576, 1, 10,
          true⟩) 7 = .ok f s c) ↔
      (∃ m, some (FileManifest.mk ("abc123def456") ("f.bin") 10 0 99
          1048576 1 10 true) = some m ∧ m.complete = true ∧
        m.received_size = m.size ∧ 7 < m.expires_at_unix)) ∧
    ((download_blob (some ⟨("abc123def456"), ("f.bin"), 10, 0, 99, 1048576,
        1, 10, true⟩) 7 = .notFound true) ↔
      (∃ m, some (FileManifest.mk ("abc123def456") ("f.bin") 10 0 99
          1048576 1 10 true) = some m ∧ m.complete = true ∧
        m.received_size = m.size ∧ m.expires_at_unix ≤ 7)) :=
  download_blob_conditions
    (some ⟨("abc123def456"), ("f.bin"), 10, 0, 99, 1048576, 1, 10, true⟩) 7

theorem getLast?_mem_list {l : List Char} {a : Char}
    (h : l.getLast? = some a) : a ∈ l := by
  have hx : a ∈ l.getLast? := by rw [Option.mem_def]; exact h
  obtain ⟨hne, ha⟩ := List.mem_getLast?_eq_getLast hx
  rw [ha]
  exact List.getLast_mem hne

theorem decDigit_digitChar : ∀ d, d < 10 → decDigit (digitChar d) = some d := by
  decide

theorem digitChar_ne_plus : ∀ d, d < 10 → digitChar d ≠ '+' := by decide

theorem digitChar_ne_nl : ∀ d, d < 10 → digitChar d ≠ '\n' := by decide

theorem digitChar_ne_cr : ∀ d, d < 10 → digitChar d ≠ '\r' := by decide

theorem parseDecAux_natToDecAux :
    ∀ (fuel n : Nat) (acc : List Char) (a : Nat), n < fuel →
      ∃ T, 0 < T ∧
        parseDecAux (natToDecAux fuel n acc) a = parseDecAux acc (a * T + n)
  | 0, n, _, _, h => absurd h (Nat.not_lt_zero n)
  | fuel + 1, n, acc, a, h => by
      by_cases h10 : n < 10
      · refine ⟨10, by omega, ?_⟩
        simp only [natToDecAux, if_pos h10, parseDecAux,
          decDigit_digitChar n h10]
      · have hdivlt : n / 10 < fuel := by
          have h1 : n / 10 < n := Nat.div_lt_self (by omega) (by omega)
          omega
        obtain ⟨T, hT, heq⟩ := parseDecAux_natToDecAux fuel (n / 10)
          (digitChar (n % 10) :: acc) a hdivlt
        refine ⟨T * 10, by positivity, ?_⟩
        simp only [natToDecAux, if_neg h10]
        rw [heq]
        have hm : n % 10 < 10 := Nat.mod_lt n (by omega)
        simp only [parseDecAux, decDigit_digitChar (n % 10) hm]
        congr 1
        have := Nat.div_add_mod n 10
        ring_nf
        omega

theorem parseDecAux_natToDec (n : Nat) :
    parseDecAux (natToDec n) 0 = some n := by
  obtain ⟨T, _, heq⟩ :=
    parseDecAux_natToDecAux (n + 1) n [] 0 (Nat.lt_succ_self n)
  simpa [natToDec, parseDecAux] using heq

theorem natToDecAux_shape :
    ∀ (fuel n : Nat) (acc : List Char), n < fuel →
      ∃ d rest, d < 10 ∧ natToDecAux fuel n acc = digitChar d :: rest
  | 0, n, _, h => absurd h (Nat.not_lt_zero n)
  | fuel + 1, n, acc, h => by
      by_cases h10 : n < 10
      · exact ⟨n, acc, h10, by simp [natToDecAux, h10]⟩
      · have hdivlt : n / 10 < fuel := by
          have h1 : n / 10 < n := Nat.div_lt_self (by omega) (by omega)
          omega
        obtain ⟨d, rest, hd, hr⟩ := natToDecAux_shape fuel (n / 10)
          (digitChar (n % 10) :: acc) hdivlt
        exact ⟨d, rest, hd, by simp only [natToDecAux, if_neg h10]; exact hr⟩

theorem natToDecAux_mem :
    ∀ (fuel n : Nat) (acc : List Char) (c : Char),
      c ∈ natToDecAux fuel n acc →
      c ∈ acc ∨ ∃ d, d < 10 ∧ c = digitChar d
  | 0, _, _, _, h => Or.inl h
  | fuel + 1, n, acc, c, h => by
      by_cases h10 : n < 10
      · simp only [natToDecAux, if_pos h10] at h
        rcases List.mem_cons.mp h with rfl | hm
        · exact Or.inr ⟨n, h10, rfl⟩
        · exact Or.inl hm
      · simp only [natToDecAux, if_neg h10] at h
        rcases natToDecAux_mem fuel (n / 10) _ c h with hm | hd
        · rcases List.mem_cons.mp hm with rfl | hm2
          · exact Or.inr ⟨n % 10, Nat.mod_lt n (by omega), rfl⟩
          · exact Or.inl hm2
        · exact Or.inr hd

theorem natToDec_no_nl (n : Nat) : ('\n') ∉ natToDec n := by
  intro hmem
  rcases natToDecAux_mem (n + 1) n [] _ hmem with h | ⟨d, hd, hc⟩
  · cases h
  · exact digitChar_ne_nl d hd hc.symm

theorem natToDec_last_ne_cr (n : Nat) :
    (natToDec n).getLast? ≠ some ('\r') := by
  intro h
  rcases natToDecAux_mem (n + 1) n [] _ (getLast?_mem_list h)
    with h0 | ⟨d, hd, hc⟩
  · cases h0
  · exact digitChar_ne_cr d hd hc.symm

theorem parseU64_natToDec (n : Nat) (h : n < 2 ^ 64) :
    parseU64 (natToDec n) = some n := by
  obtain ⟨d, rest, hd, hshape⟩ :=
    natToDecAux_shape (n + 1) n [] (Nat.lt_succ_self n)
  have hne : digitChar d ≠ '+' := digitChar_ne_plus d hd
  have hparse := parseDecAux_natToDec n
  unfold natToDec at hparse ⊢
  rw [hshape] at hparse ⊢
  simp only [parseU64, if_neg hne]
  rw [hparse]
  have h64 : (18446744073709551616 : Nat) = 2 ^ 64 := by norm_num
  have h' : n < 18446744073709551616 := by omega
  simp [h']

theorem stripCrList_of_last_ne (l : List Char)
    (h : l.getLast? ≠ some ('\r')) : stripCrList l = l := by
  simp [stripCrList, h]

theorem getLast?_append_ne_cr (pre value : List Char)
    (hpre : pre.getLast? ≠ some ('\r'))
    (hv : value.getLast? ≠ some ('\r')) :
    (pre ++ value).getLast? ≠ some ('\r') := by
  rcases eq_or_ne value [] with rfl | hne
  · simpa using hpre
  · rw [List.getLast?_append_of_ne_nil pre hne]
    exact hv

theorem rustLinesGo_line (l : List Char) (hnl : ('\n') ∉ l) :
    ∀ (rest acc : List Char),
      rustLinesGo (l ++ '\n' :: rest) acc =
        stripCrList (acc.reverse ++ l) :: rustLinesGo rest [] := by
  induction l with
  | nil =>
      intro rest acc
      simp [rustLinesGo]
  | cons c l ih =>
      intro rest acc
      have hc : c ≠ '\n' := by
        intro hh
        exact hnl (hh ▸ List.mem_cons_self c l)
      have hl : ('\n') ∉ l := fun hh => hnl (List.mem_cons_of_mem c hh)
      simp only [List.cons_append, rustLinesGo, if_neg hc]
      rw [List.append_eq, ih hl rest (c :: acc)]
      congr 2
      simp [List.reverse_cons, List.append_assoc]

theorem splitOnceEq_key (key : List Char) (hk : ('=') ∉ key)
    (v : List Char) : splitOnceEq (key ++ '=' :: v) = some (key, v) := by
  induction key with
  | nil => simp [splitOnceEq]
  | cons c cs ih =>
      have hc : c ≠ '=' := by
        intro hh
        exact hk (hh ▸ List.mem_cons_self c cs)
      have hcs : ('=') ∉ cs := fun hh => hk (List.mem_cons_of_mem c hh)
      simp [splitOnceEq, hc, ih hcs]

theorem collectMap_cons_of_some (k0 v0 : List Char)
    (rest : List (List Char × List Char)) (k v : List Char)
    (h : collectMap rest k = some v) :
    collectMap ((k0, v0) :: rest) k = some v := by
  simp [collectMap, h]

theorem collectMap_none_of_not_mem (kvs : List (List Char × List Char))
    (k : List Char) (h : k ∉ kvs.map Prod.fst) : collectMap kvs k = none := by
  induction kvs with
  | nil => rfl
  | cons kv rest ih =>
      have h1 : kv.1 ≠ k := by
        intro hh
        exact h (by simp [hh])
      have h2 : k ∉ rest.map Prod.fst := by
        intro hh
        exact h (by simp [hh])
      simp [collectMap, ih h2, h1]

theorem collectMap_append_found (pre : List (List Char × List Char))
    (k v : List Char) (suffix : List (List Char × List Char))
    (hsuf : k ∉ suffix.map Prod.fst) :
    collectMap (pre ++ (k, v) :: suffix) k = some v := by
  induction pre with
  | nil =>
      simp [collectMap, collectMap_none_of_not_mem suffix k hsuf]
  | cons e pre ih => exact collectMap_cons_of_some e.1 e.2 _ k v ih

/-- C9 (amended): `FileManifest.parse (m.to_text())` succeeds and returns
`m` field-for-field whenever `id` and `filename` contain no `\n` *and do not
end in a carriage return* (a trailing `\r` would be consumed by the `\r\n`
handling of `str::lines`), with the numeric fields in `u64` range. -/
theorem manifest_roundtrip (m : FileManifest)
    (h1 : ('\n') ∉ m.id.data) (h2 : ('\n') ∉ m.filename.data)
    (h3 : m.id.data.getLast? ≠ some ('\r'))
    (h4 : m.filename.data.getLast? ≠ some ('\r'))
    (h5 : m.size < 2 ^ 64) (h6 : m.created_at_unix < 2 ^ 64)
    (h7 : m.expires_at_unix < 2 ^ 64) (h8 : m.chunk_size < 2 ^ 64)
    (h9 : m.chunk_count < 2 ^ 64) (h10 : m.received_size < 2 ^ 64) :
    FileManifest.parse m.toText = Except.ok m := by
  have hnlNum : ∀ (pre : List Char) (n : Nat), ('\n') ∉ pre →
      ('\n') ∉ (pre ++ natToDec n) := by
    intro pre n hpre hmem
    rcases List.mem_append.mp hmem with hh | hh
    · exact hpre hh
    · exact natToDec_no_nl n hh
  have hnl1 : ('\n') ∉ (("id=").data ++ m.id.data) := by
    intro hmem
    rcases List.mem_append.mp hmem with hh | hh
    · exact absurd hh (by decide)
    · exact h1 hh
  have hnl2 : ('\n') ∉ (("filename=").data ++ m.filename.data) := by
    intro hmem
    rcases List.mem_append.mp hmem with hh | hh
    · exact absurd hh (by decide)
    · exact h2 hh
  have hnl9 : ('\n') ∉ (("complete=").data ++
      (if m.complete then ("true").data else ("false").data)) := by
    cases hcp : m.complete <;> decide
  have hst1 : stripCrList (("id=").data ++ m.id.data) =
      ("id=").data ++ m.id.data :=
    stripCrList_of_last_ne _
      (getLast?_append_ne_cr (("id=").data) m.id.data (by decide) h3)
  have hst2 : stripCrList (("filename=").data ++ m.filename.data) =
      ("filename=").data ++ m.filename.data :=
    stripCrList_of_last_ne _
      (getLast?_append_ne_cr (("filename=").data) m.filename.data
        (by decide) h4)
  have hstNum : ∀ (pre : List Char) (n : Nat),
      pre.getLast? ≠ some ('\r') →
      stripCrList (pre ++ natToDec n) = pre ++ natToDec n := by
    intro pre n hpre
    exact stripCrList_of_last_ne _
      (getLast?_append_ne_cr pre (natToDec n) hpre (natToDec_last_ne_cr n))
  have hst9 : stripCrList (("complete=").data ++
        (if m.complete then ("true").data else ("false").data)) =
      ("complete=").data ++
        (if m.complete then ("true").data else ("false").data) := by
    cases hcp : m.complete <;> decide
  have hlines : rustLines m.toTextData =
      [("id=").data ++ m.id.data,
       ("filename=").data ++ m.filename.data,
       ("size=").data ++ natToDec m.size,
       ("created_at_unix=").data ++ natToDec m.created_at_unix,
       ("expires_at_unix=").data ++ natToDec m.expires_at_unix,
       ("chunk_size=").data ++ natToDec m.chunk_size,
       ("chunk_count=").data ++ natToDec m.chunk_count,
       ("received_size=").data ++ natToDec m.received_size,
       ("complete=").data ++
         (if m.complete then ("true").data else ("false").data)] := by
    unfold rustLines FileManifest.toTextData
    rw [rustLinesGo_line _ hnl1]
    rw [rustLinesGo_line _ hnl2]
    rw [rustLinesGo_line _ (hnlNum (("size=").data) m.size (by decide))]
    rw [rustLinesGo_line _
      (hnlNum (("created_at_unix=").data) m.created_at_unix (by decide))]
    rw [rustLinesGo_line _
      (hnlNum (("expires_at_unix=").data) m.expires_at_unix (by decide))]
    rw [rustLinesGo_line _
      (hnlNum (("chunk_size=").data) m.chunk_size (by decide))]
    rw [rustLinesGo_line _
      (hnlNum (("chunk_count=").data) m.chunk_count (by decide))]
    rw [rustLinesGo_line _
      (hnlNum (("received_size=").data) m.received_size (by decide))]
    rw [rustLinesGo_line _ hnl9]
    simp only [List.reverse_nil, List.nil_append, rustLinesGo]
    rw [hst1, hst2, hstNum _ _ (by decide), hstNum _ _ (by decide),
      hstNum _ _ (by decide), hstNum _ _ (by decide),
      hstNum _ _ (by decide), hstNum _ _ (by decide), hst9]
    rfl
  have hs1 : splitOnceEq (("id=").data ++ m.id.data) =
      some ((("id").data), m.id.data) :=
    splitOnceEq_key (("id").data) (by decide) m.id.data
  have hs2 : splitOnceEq (("filename=").data ++ m.filename.data) =
      some ((("filename").data), m.filename.data) :=
    splitOnceEq_key (("filename").data) (by decide) m.filename.data
  have hs3 : splitOnceEq (("size=").data ++ natToDec m.size) =
      some ((("size").data), natToDec m.size) :=
    splitOnceEq_key (("size").data) (by decide) (natToDec m.size)
  have hs4 : splitOnceEq
      (("created_at_unix=").data ++ natToDec m.created_at_unix) =
      some ((("created_at_unix").data), natToDec m.created_at_unix) :=
    splitOnceEq_key (("created_at_unix").data) (by decide)
      (natToDec m.created_at_unix)
  have hs5 : splitOnceEq
      (("expires_at_unix=").data ++ natToDec m.expires_at_unix) =
      some ((("expires_at_unix").data), natToDec m.expires_at_unix) :=
    splitOnceEq_key (("expires_at_unix").data) (by decide)
      (natToDec m.expires_at_unix)
  have hs6 : splitOnceEq (("chunk_size=").data ++ natToDec m.chunk_size) =
      some ((("chunk_size").data), natToDec m.chunk_size) :=
    splitOnceEq_key (("chunk_size").data) (by decide)
      (natToDec m.chunk_size)
  have hs7 : splitOnceEq (("chunk_count=").data ++ natToDec m.chunk_count) =
      some ((("chunk_count").data), natToDec m.chunk_count) :=
    splitOnceEq_key (("chunk_count").data) (by decide)
      (natToDec m.chunk_count)
  have hs8 : splitOnceEq
      (("received_size=").data ++ natToDec m.received_size) =
      some ((("received_size").data), natToDec m.received_size) :=
    splitOnceEq_key (("received_size").data) (by decide)
      (natToDec m.received_size)
  have hs9 : splitOnceEq (("complete=").data ++
      (if m.complete then ("true").data else ("false").data)) =
      some ((("complete").data),
        (if m.complete then ("true").data else ("false").data)) :=
    splitOnceEq_key (("complete").data) (by decide) _
  have hpairs : (rustLines (FileManifest.toText m).data).filterMap
      splitOnceEq =
      [((("id").data), m.id.data),
       ((("filename").data), m.filename.data),
       ((("size").data), natToDec m.size),
       ((("created_at_unix").data), natToDec m.created_at_unix),
       ((("expires_at_unix").data), natToDec m.expires_at_unix),
       ((("chunk_size").data), natToDec m.chunk_size),
       ((("chunk_count").data), natToDec m.chunk_count),
       ((("received_size").data), natToDec m.received_size),
       ((("complete").data),
         (if m.complete then ("true").data else ("false").data))] := by
    have hdata : (FileManifest.toText m).data = m.toTextData := rfl
    rw [hdata, hlines]
    simp only [List.filterMap_cons, hs1, hs2, hs3, hs4, hs5, hs6, hs7, hs8,
      hs9, List.filterMap_nil]
  have hbool : parseBoolStr
      (if m.complete then ("true").data else ("false").data) =
      some m.complete := by
    cases hcp : m.complete <;> decide
  have c1 : collectMap (List.filterMap splitOnceEq
      (rustLines (FileManifest.toText m).data)) (("id").data) =
      some m.id.data := by
    rw [hpairs]
    exact collectMap_append_found [] (("id").data) m.id.data
      [((("filename").data), m.filename.data),
       ((("size").data), natToDec m.size),
       ((("created_at_unix").data), natToDec m.created_at_unix),
       ((("expires_at_unix").data), natToDec m.expires_at_unix),
       ((("chunk_size").data), natToDec m.chunk_size),
       ((("chunk_count").data), natToDec m.chunk_count),
       ((("received_size").data), natToDec m.received_size),
       ((("complete").data),
         (if m.complete then ("true").data else ("false").data))]
      (by simp only [List.map_cons, List.map_nil]; decide)
  have c2 : collectMap (List.filterMap splitOnceEq
      (rustLines (FileManifest.toText m).data)) (("filename").data) =
      some m.filename.data := by
    rw [hpairs]
    exact collectMap_append_found [((("id").data), m.id.data)]
      (("filename").data) m.filename.data
      [((("size").data), natToDec m.size),
       ((("created_at_unix").data), natToDec m.created_at_unix),
       ((("expires_at_unix").data), natToDec m.expires_at_unix),
       ((("chunk_size").data), natToDec m.chunk_size),
       ((("chunk_count").data), natToDec m.chunk_count),
       ((("received_size").data), natToDec m.received_size),
       ((("complete").data),
         (if m.complete then ("true").data else ("false").data))]
      (by simp only [List.map_cons, List.map_nil]; decide)
  have c3 : collectMap (List.filterMap splitOnceEq
      (rustLines (FileManifest.toText m).data)) (("size").data) =
      some (natToDec m.size) := by
    rw [hpairs]
    exact collectMap_append_found
      [((("id").data), m.id.data),
       ((("filename").data), m.filename.data)]
      (("size").data) (natToDec m.size)
      [((("created_at_unix").data), natToDec m.created_at_unix),
       ((("expires_at_unix").data), natToDec m.expires_at_unix),
       ((("chunk_size").data), natToDec m.chunk_size),
       ((("chunk_count").data), natToDec m.chunk_count),
       ((("received_size").data), natToDec m.received_size),
       ((("complete").data),
         (if m.complete then ("true").data else ("false").data))]
      (by simp only [List.map_cons, List.map_nil]; decide)
  have c4 : collectMap (List.filterMap splitOnceEq
      (rustLines (FileManifest.toText m).data))
      (("created_at_unix").data) = some (natToDec m.created_at_unix) := by
    rw [hpairs]
    exact collectMap_append_found
      [((("id").data), m.id.data),
       ((("filename").data), m.filename.data),
       ((("size").data), natToDec m.size)]
      (("created_at_unix").data) (natToDec m.created_at_unix)
      [((("expires_at_unix").data), natToDec m.expires_at_unix),
       ((("chunk_size").data), natToDec m.chunk_size),
       ((("chunk_count").data), natToDec m.chunk_count),
       ((("received_size").data), natToDec m.received_size),
       ((("complete").data),
         (if m.complete then ("true").data else ("false").data))]
      (by simp only [List.map_cons, List.map_nil]; decide)
  have c5 : collectMap (List.filterMap splitOnceEq
      (rustLines (FileManifest.toText m).data))
      (("expires_at_unix").data) = some (natToDec m.expires_at_unix) := by
    rw [hpairs]
    exact collectMap_append_found
      [((("id").data), m.id.data),
       ((("filename").data), m.filename.data),
       ((("size").data), natToDec m.size),
       ((("created_at_unix").data), natToDec m.created_at_unix)]
      (("expires_at_unix").data) (natToDec m.expires_at_unix)
      [((("chunk_size").data), natToDec m.chunk_size),
       ((("chunk_count").data), natToDec m.chunk_count),
       ((("received_size").data), natToDec m.received_size),
       ((("complete").data),
         (if m.complete then ("true").data else ("false").data))]
      (by simp only [List.map_cons, List.map_nil]; decide)
  have c6 : collectMap (List.filterMap splitOnceEq
      (rustLines (FileManifest.toText m).data)) (("chunk_size").data) =
      some (natToDec m.chunk_size) := by
    rw [hpairs]
    exact collectMap_append_found
      [((("id").data), m.id.data),
       ((("filename").data), m.filename.data),
       ((("size").data), natToDec m.size),
       ((("created_at_unix").data), natToDec m.created_at_unix),
       ((("expires_at_unix").data), natToDec m.expires_at_unix)]
      (("chunk_size").data) (natToDec m.chunk_size)
      [((("chunk_count").data), natToDec m.chunk_count),
       ((("received_size").data), natToDec m.received_size),
       ((("complete").data),
         (if m.complete then ("true").data else ("false").data))]
      (by simp only [List.map_cons, List.map_nil]; decide)
  have c7 : collectMap (List.filterMap splitOnceEq
      (rustLines (FileManifest.toText m).data)) (("chunk_count").data) =
      some (natToDec m.chunk_count) := by
    rw [hpairs]
    exact collectMap_append_found
      [((("id").data), m.id.data),
       ((("filename").data), m.filename.data),
       ((("size").data), natToDec m.size),
       ((("created_at_unix").data), natToDec m.created_at_unix),
       ((("expires_at_unix").data), natToDec m.expires_at_unix),
       ((("chunk_size").data), natToDec m.chunk_size)]
      (("chunk_count").data) (natToDec m.chunk_count)
      [((("received_size").data), natToDec m.received_size),
       ((("complete").data),
         (if m.complete then ("true").data else ("false").data))]
      (by simp only [List.map_cons, List.map_nil]; decide)
  have c8 : collectMap (List.filterMap splitOnceEq
      (rustLines (FileManifest.toText m).data)) (("received_size").data) =
      some (natToDec m.received_size) := by
    rw [hpairs]
    exact collectMap_append_found
      [((("id").data), m.id.data),
       ((("filename").data), m.filename.data),
       ((("size").data), natToDec m.size),
       ((("created_at_unix").data), natToDec m.created_at_unix),
       ((("expires_at_unix").data), natToDec m.expires_at_unix),
       ((("chunk_size").data), natToDec m.chunk_size),
       ((("chunk_count").data), natToDec m.chunk_count)]
      (("received_size").data) (natToDec m.received_size)
      [((("complete").data),
         (if m.complete then ("true").data else ("false").data))]
      (by simp only [List.map_cons, List.map_nil]; decide)
  have c9 : collectMap (List.filterMap splitOnceEq
      (rustLines (FileManifest.toText m).data)) (("complete").data) =
      some (if m.complete then ("true").data else ("false").data) := by
    rw [hpairs]
    exact collectMap_append_found
      [((("id").data), m.id.data),
       ((("filename").data), m.filename.data),
       ((("size").data), natToDec m.size),
       ((("created_at_unix").data), natToDec m.created_at_unix),
       ((("expires_at_unix").data), natToDec m.expires_at_unix),
       ((("chunk_size").data), natToDec m.chunk_size),
       ((("chunk_count").data), natToDec m.chunk_count),
       ((("received_size").data), natToDec m.received_size)]
      (("complete").data)
      (if m.complete then ("true").data else ("false").data) []
      (by simp only [List.map_cons, List.map_nil]; decide)
  simp only [FileManifest.parse, getManifestKey, c1, c2, c3, c4, c5, c6,
    c7, c8, c9, parseNatField, parseU64_natToDec m.size h5,
    parseU64_natToDec m.created_at_unix h6,
    parseU64_natToDec m.expires_at_unix h7,
    parseU64_natToDec m.chunk_size h8,
    parseU64_natToDec m.chunk_count h9,
    parseU64_natToDec m.received_size h10,
    parseBoolField, hbool, bind, Except.bind, pure, Except.pure]

/-- C9 counterexample: a manifest whose `filename` is "a\r" (no newline
character, satisfying the claim's hypothesis) does not round-trip:
`str::lines` treats the resulting `\r\n` as one line break and strips the
`\r`, so parsing returns `filename = "a"`. -/
theorem manifest_roundtrip_cr_failure :
    ('\n') ∉ ("a\x0d").data ∧ ('\n') ∉ ("x").data ∧
    FileManifest.parse (FileManifest.toText
        ⟨("x"), ("a\x0d"), 1, 2, 3, 4, 1, 1, true⟩) =
      Except.ok ⟨("x"), ("a"), 1, 2, 3, 4, 1, 1, true⟩ ∧
    FileManifest.parse (FileManifest.toText
        ⟨("x"), ("a\x0d"), 1, 2, 3, 4, 1, 1, true⟩) ≠
      Except.ok ⟨("x"), ("a\x0d"), 1, 2, 3, 4, 1, 1, true⟩ := by
  have hpos : FileManifest.parse (FileManifest.toText
      ⟨("x"), ("a\x0d"), 1, 2, 3, 4, 1, 1, true⟩) =
      Except.ok ⟨("x"), ("a"), 1, 2, 3, 4, 1, 1, true⟩ := by rfl
  refine ⟨by decide, by decide, hpos, ?_⟩
  rw [hpos]
  intro h
  injection h with h2
  have hne : (⟨("x"), ("a"), 1, 2, 3, 4, 1, 1, true⟩ : FileManifest) ≠
      ⟨("x"), ("a\x0d"), 1, 2, 3, 4, 1, 1, true⟩ := by decide
  exact hne h2

/-- Witness for `manifest_roundtrip` at a concrete manifest. -/
theorem manifest_roundtrip_witness :
    ('\n') ∉ manifestW.id.data ∧ ('\n') ∉ manifestW.filename.data ∧
    manifestW.id.data.getLast? ≠ some ('\r') ∧
    manifestW.filename.data.getLast? ≠ some ('\r') ∧
    manifestW.size < 2 ^ 64 ∧ manifestW.created_at_unix < 2 ^ 64 ∧
    manifestW.expires_at_unix < 2 ^ 64 ∧ manifestW.chunk_size < 2 ^ 64 ∧
    manifestW.chunk_count < 2 ^ 64 ∧ manifestW.received_size < 2 ^ 64 ∧
    FileManifest.parse manifestW.toText = Except.ok manifestW :=
  ⟨by decide, by decide, by decide, by decide, by decide, by decide,
    by decide, by decide, by decide, by decide,
    manifest_roundtrip manifestW (by decide) (by decide) (by decide)
      (by decide) (by decide) (by decide) (by decide) (by decide)
      (by decide) (by decide)⟩
